import Mathlib

/-!
Verification of three Advent-of-Code 2023 puzzle programs (prob3, prob10,
prob16) of this repository against their natural-language specification.

The Rust sources are embedded shallowly:
* `usize` / `u32` arithmetic is `Nat` with explicit wrapping modulo `2 ^ 64`
  (resp. `2 ^ 32`) wherever overflow is reachable (release-profile semantics,
  where integer overflow wraps);
* fallible code returns an explicit outcome type `RRes` that also records
  panics (out-of-bounds `Vec` indexing in the source);
* `while` loops become fuelled recursion; fuel exhaustion is a distinguished
  outcome that is never produced when enough fuel is supplied.
-/

/-- Outcome of running a piece of the Rust code: a value (`Ok`), an error value
(`Err`), a panic (out-of-bounds indexing in the source), or fuel exhaustion
(a model artefact for `while` loops). -/
inductive RRes (ε α : Type) where
  | ok (a : α)
  | err (e : ε)
  | panicked
  | noFuel
  deriving DecidableEq, Repr

instance : Monad (RRes ε) where
  pure := RRes.ok
  bind := fun x f =>
    match x with
    | .ok a => f a
    | .err e => .err e
    | .panicked => .panicked
    | .noFuel => .noFuel

/-- `2 ^ 64`, the modulus of Rust `usize` arithmetic on a 64-bit target. -/
def w64 : Nat := 2 ^ 64

/-- Wrapping `usize` addition (release-profile overflow semantics). -/
def wadd64 (a b : Nat) : Nat := (a + b) % w64

/-- Wrapping `usize` subtraction (release-profile overflow semantics); faithful
for `b ≤ 2 ^ 64`, which covers every use below (`b = 1`). -/
def wsub64 (a b : Nat) : Nat := (a + w64 - b) % w64

/-- `2 ^ 32`, the modulus of Rust `u32` arithmetic. -/
def w32 : Nat := 2 ^ 32

/-- Wrapping `u32` addition. -/
def wadd32 (a b : Nat) : Nat := (a + b) % w32

/-- Rust's `Iterator::collect::<Result<Vec<_>, _>>`: apply `f` to each element,
stopping at the first non-`Ok` outcome. -/
def collectE (f : α → RRes ε β) : List α → RRes ε (List β)
  | [] => .ok []
  | x :: xs =>
    match f x with
    | .ok y =>
      match collectE f xs with
      | .ok ys => .ok (y :: ys)
      | .err e => .err e
      | .panicked => .panicked
      | .noFuel => .noFuel
    | .err e => .err e
    | .panicked => .panicked
    | .noFuel => .noFuel

/-- Split a character list at every `'\n'` (the splitting underlying Rust's
`str::lines`). -/
def splitNL : List Char → List Char → List (List Char)
  | [], acc => [acc.reverse]
  | c :: cs, acc =>
    if c = '\n' then acc.reverse :: splitNL cs [] else splitNL cs (c :: acc)

/-- Remove one trailing carriage return, as Rust's `str::lines` does for lines
terminated by `"\r\n"`. -/
def stripCRChars (cs : List Char) : List Char :=
  match cs.getLast? with
  | some c => if c = '\r' then cs.dropLast else cs
  | Option.none => cs

/-- Rust's `str::lines`: split at `'\n'`, strip a trailing `'\r'` from every
line that was actually terminated, and do not produce a final empty line for a
trailing terminator (a final line without a terminator keeps a bare `'\r'`). -/
def rustLines (s : String) : List String :=
  let ps := splitNL s.data []
  let front := (ps.dropLast).map (fun l => String.mk (stripCRChars l))
  match ps.getLast? with
  | some last => if last = [] then front else front ++ [String.mk last]
  | Option.none => front

namespace prob10

/-- The compass directions of the shared `advent` helper crate (the crate is
not under `src/`; the type is modelled from its use sites in
`src/prob10/src/main.rs`). -/
inductive CardinalDirection where
  | north
  | south
  | east
  | west
  deriving DecidableEq, Repr

/-- `CardinalDirection::opposite` of the `advent` helper crate, modelled from
its use sites (the direction one came from after moving the other way). -/
def CardinalDirection.opposite : CardinalDirection → CardinalDirection
  | .north => .south
  | .south => .north
  | .east => .west
  | .west => .east

/-- The `Pipe` cell enumeration of `src/prob10/src/main.rs`. -/
inductive Pipe where
  | horizontal
  | vertical
  | cornerNorthEast
  | cornerNorthWest
  | cornerSouthEast
  | cornerSouthWest
  | start
  | none
  deriving DecidableEq, Repr

/-- The distinct error values produced by `src/prob10/src/main.rs` (the source
builds them as strings with the `error!` macro; one constructor per site). -/
inductive Err10 where
  | invalidPipe (c : Char)
  | startNotFound
  | invalidCoordinate (c : Nat × Nat)
  | invalidNode
  | noNextDirection
  | invalidNextCoordinate (c : Nat × Nat)
  | invalidNextNode
  | invalidDirections
  | invalidStartCoordinate (c : Nat × Nat)
  deriving DecidableEq, Repr

/-- `impl FromStr for Pipe` (the source parses the one-character string
`c.to_string()`; modelled directly on the character). -/
def Pipe.fromChar (c : Char) : RRes Err10 Pipe :=
  if c = '-' then .ok .horizontal
  else if c = '|' then .ok .vertical
  else if c = 'L' then .ok .cornerNorthEast
  else if c = 'J' then .ok .cornerNorthWest
  else if c = 'F' then .ok .cornerSouthEast
  else if c = '7' then .ok .cornerSouthWest
  else if c = 'S' then .ok .start
  else if c = '.' then .ok .none
  else .err (.invalidPipe c)

/-- `Pipe::connects_to`, in the order the source lists the directions (the
source collects them into a `HashSet`; the list order is used below only to
resolve the set's unspecified iteration order). -/
def Pipe.connectsTo : Pipe → List CardinalDirection
  | .horizontal => [.east, .west]
  | .vertical => [.north, .south]
  | .cornerNorthEast => [.north, .east]
  | .cornerNorthWest => [.north, .west]
  | .cornerSouthEast => [.south, .east]
  | .cornerSouthWest => [.south, .west]
  | _ => []

/-- The `PipeMap` struct: a grid of pipes with its cached dimensions
(coordinates are `(row, col)`). -/
structure PipeMap where
  nodes : List (List Pipe)
  height : Nat
  width : Nat
  deriving DecidableEq, Repr

/-- `impl FromStr for PipeMap`, given the already-split lines: parse every
character of every line, then read the dimensions.  `nodes[0]` panics when the
input has no lines. -/
def pipeMapFromLines (lines : List String) : RRes Err10 PipeMap :=
  match collectE (fun line => collectE Pipe.fromChar line.data) lines with
  | .ok [] => .panicked
  | .ok (r :: rs) => .ok ⟨r :: rs, (r :: rs).length, r.length⟩
  | .err e => .err e
  | .panicked => .panicked
  | .noFuel => .noFuel

/-- `impl FromStr for PipeMap` on the raw input text. -/
def pipeMapFromStr (s : String) : RRes Err10 PipeMap :=
  pipeMapFromLines (rustLines s)

/-- Index of the first `Start` pipe of one row (inner loop of
`PipeMap::find_start`). -/
def findStartRow : List Pipe → Option Nat
  | [] => Option.none
  | p :: ps =>
    if p = Pipe.start then some 0 else (findStartRow ps).map (· + 1)

/-- Row-major coordinate of the first `Start` pipe (both loops of
`PipeMap::find_start`). -/
def findStartAux : List (List Pipe) → Option (Nat × Nat)
  | [] => Option.none
  | r :: rs =>
    match findStartRow r with
    | some y => some (0, y)
    | Option.none => (findStartAux rs).map (fun c => (c.1 + 1, c.2))

/-- `PipeMap::find_start`. -/
def PipeMap.find_start (m : PipeMap) : RRes Err10 (Nat × Nat) :=
  match findStartAux m.nodes with
  | some c => .ok c
  | Option.none => .err .startNotFound

/-- `PipeMap::get_node`: bounds check against the cached dimensions, then
index `nodes[row][col]` (panicking when the cached dimensions overstate the
actual ones). -/
def PipeMap.get_node (m : PipeMap) (coord : Nat × Nat) : RRes Err10 Pipe :=
  if m.height ≤ coord.1 ∨ m.width ≤ coord.2 then .err (.invalidCoordinate coord)
  else
    match m.nodes.get? coord.1 with
    | Option.none => .panicked
    | some row =>
      match row.get? coord.2 with
      | Option.none => .panicked
      | some p => .ok p

/-- The direction `get_next_node` continues in: the pipe's connections minus
the direction one came from.  The source takes an arbitrary element of the
`HashSet` difference; when the incoming direction is one of the pipe's two
connections (the only case exercised on a consistent walk) exactly one element
remains and the choice is forced.  The model takes the first remaining element
in the source's `vec!` order. -/
def nextDirection (p : Pipe) (cameFrom : CardinalDirection) :
    Option CardinalDirection :=
  (p.connectsTo.filter (fun d => d ≠ cameFrom)).head?

/-- The coordinate one step in a direction, with wrapping `usize` arithmetic
(the corresponding expressions of `PipeMap::get_next_node`). -/
def shiftWrap (coord : Nat × Nat) : CardinalDirection → Nat × Nat
  | .north => (wsub64 coord.1 1, coord.2)
  | .south => (wadd64 coord.1 1, coord.2)
  | .west => (coord.1, wsub64 coord.2 1)
  | .east => (coord.1, wadd64 coord.2 1)

/-- `PipeMap::get_next_node`. -/
def PipeMap.get_next_node (m : PipeMap) (coord : Nat × Nat)
    (cameFrom : CardinalDirection) : RRes Err10 ((Nat × Nat) × CardinalDirection) :=
  match m.get_node coord with
  | .err e => .err e
  | .panicked => .panicked
  | .noFuel => .noFuel
  | .ok node =>
    if node = Pipe.none ∨ node = Pipe.start then .err .invalidNode
    else
      match nextDirection node cameFrom with
      | Option.none => .err .noNextDirection
      | some nd =>
        if m.height ≤ (shiftWrap coord nd).1 ∨ m.width ≤ (shiftWrap coord nd).2
        then .err (.invalidNextCoordinate (shiftWrap coord nd))
        else
          match m.get_node (shiftWrap coord nd) with
          | .err e => .err e
          | .panicked => .panicked
          | .noFuel => .noFuel
          | .ok nn =>
            if nn = Pipe.none then .err .invalidNextNode
            else .ok (shiftWrap coord nd, nd.opposite)

/-- `PipeMap::shift_coord`: step one cell, or `None` at the grid edge. -/
def PipeMap.shift_coord (m : PipeMap) (coord : Nat × Nat) :
    CardinalDirection → Option (Nat × Nat)
  | .north => if coord.1 = 0 then Option.none else some (coord.1 - 1, coord.2)
  | .south =>
    if coord.1 = m.height - 1 then Option.none else some (coord.1 + 1, coord.2)
  | .west => if coord.2 = 0 then Option.none else some (coord.1, coord.2 - 1)
  | .east =>
    if coord.2 = m.width - 1 then Option.none else some (coord.1, coord.2 + 1)

/-- One neighbour probe of `PipeMap::get_start_directions`: the direction is
kept when the neighbouring cell exists and its pipe connects back. -/
def startDirProbe (m : PipeMap) (start : Nat × Nat) (d : CardinalDirection) :
    RRes Err10 (List CardinalDirection) :=
  match m.shift_coord start d with
  | Option.none => .ok []
  | some c =>
    match m.get_node c with
    | .err e => .err e
    | .panicked => .panicked
    | .noFuel => .noFuel
    | .ok p => if d.opposite ∈ p.connectsTo then .ok [d] else .ok []

/-- `PipeMap::get_start_directions`: probe north, south, west, east in the
source's order and require exactly two connecting neighbours. -/
def PipeMap.get_start_directions (m : PipeMap) :
    RRes Err10 (List CardinalDirection) := do
  let start ← m.find_start
  let n ← startDirProbe m start .north
  let s ← startDirProbe m start .south
  let w ← startDirProbe m start .west
  let e ← startDirProbe m start .east
  let directions := n ++ s ++ w ++ e
  if directions.length ≠ 2 then .err .invalidDirections
  else .ok directions

/-- Row-major list of all coordinates of an `height × width` grid (the nested
`for` loops of `PipeMap::count_internal_tiles`). -/
def allCoords (height width : Nat) : List (Nat × Nat) :=
  (List.range height).foldr
    (fun x acc => (List.range width).map (fun y => (x, y)) ++ acc) []

/-- The loop body state of `PipeMap::count_internal_tiles`, threaded over the
row-major cell list: the in/out parity, the running count and the last east
corner seen. -/
def countTilesAux (m : PipeMap) :
    List (Nat × Nat) → Bool → Nat → Option Pipe → RRes Err10 Nat
  | [], _, count, _ => .ok count
  | c :: cs, inLoop, count, prevCorner =>
    match m.get_node c with
    | .err e => .err e
    | .panicked => .panicked
    | .noFuel => .noFuel
    | .ok node =>
      match node with
      | .vertical | .start => countTilesAux m cs (!inLoop) count prevCorner
      | .horizontal => countTilesAux m cs inLoop count prevCorner
      | .cornerNorthEast | .cornerSouthEast =>
        countTilesAux m cs inLoop count (some node)
      | .cornerNorthWest =>
        if prevCorner = some Pipe.cornerSouthEast then
          countTilesAux m cs (!inLoop) count prevCorner
        else countTilesAux m cs inLoop count prevCorner
      | .cornerSouthWest =>
        if prevCorner = some Pipe.cornerNorthEast then
          countTilesAux m cs (!inLoop) count prevCorner
        else countTilesAux m cs inLoop count prevCorner
      | .none =>
        countTilesAux m cs inLoop (if inLoop then count + 1 else count) prevCorner

/-- `PipeMap::count_internal_tiles`: ray-cast every row, treating `Start` like
a vertical pipe (the source notes this assumption about its input). -/
def PipeMap.count_internal_tiles (m : PipeMap) : RRes Err10 Nat :=
  countTilesAux m (allCoords m.height m.width) false 0 Option.none

/-- The `while a_coord != b_coord` loop of `part1`, as fuelled recursion. -/
def part1Loop (m : PipeMap) :
    Nat → (Nat × Nat) → CardinalDirection → (Nat × Nat) → CardinalDirection →
    Nat → RRes Err10 Nat
  | 0, _, _, _, _, _ => .noFuel
  | fuel + 1, aCoord, aFrom, bCoord, bFrom, steps =>
    if aCoord = bCoord then .ok steps
    else do
      let (aCoord', aFrom') ← m.get_next_node aCoord aFrom
      let (bCoord', bFrom') ← m.get_next_node bCoord bFrom
      part1Loop m fuel aCoord' aFrom' bCoord' bFrom' (wadd32 steps 1)

/-- `part1` of `src/prob10/src/main.rs`: walk both ways around the loop from
the start until the walkers converge, counting steps (`u32`). -/
def part1 (input : String) (fuel : Nat) : RRes Err10 Nat := do
  let m ← pipeMapFromStr input
  let startCoord ← m.find_start
  let startDirections ← m.get_start_directions
  match startDirections with
  | [d0, d1] =>
    match m.shift_coord startCoord d0 with
    | Option.none => .err (.invalidStartCoordinate startCoord)
    | some aCoord =>
      match m.shift_coord startCoord d1 with
      | Option.none => .err (.invalidStartCoordinate startCoord)
      | some bCoord =>
        part1Loop m fuel aCoord d0.opposite bCoord d1.opposite 1
  | _ => .panicked

/-- Write a pipe at a coordinate of a grid (`clean_map.nodes[x][y] = …`). -/
def setNode (g : List (List Pipe)) (c : Nat × Nat) (p : Pipe) :
    List (List Pipe) :=
  match g.get? c.1 with
  | Option.none => g
  | some row => g.set c.1 (row.set c.2 p)

/-- The `while current_coord != start_coord` loop of `part2`: copy the loop's
pipes into the clean map while threading the loop. -/
def part2Loop (m : PipeMap) :
    Nat → (Nat × Nat) → CardinalDirection → (Nat × Nat) → List (List Pipe) →
    RRes Err10 (List (List Pipe))
  | 0, _, _, _, _ => .noFuel
  | fuel + 1, current, fromDir, startCoord, clean =>
    if current = startCoord then .ok clean
    else do
      let node ← m.get_node current
      let clean' := setNode clean current node
      let (current', fromDir') ← m.get_next_node current fromDir
      part2Loop m fuel current' fromDir' startCoord clean'

/-- `part2` of `src/prob10/src/main.rs`: rebuild a map holding only the loop,
then count the tiles enclosed by it. -/
def part2 (input : String) (fuel : Nat) : RRes Err10 Nat := do
  let m ← pipeMapFromStr input
  let startCoord ← m.find_start
  let clean0 := setNode
    (List.replicate m.height (List.replicate m.width Pipe.none))
    startCoord Pipe.start
  let startDirections ← m.get_start_directions
  match startDirections with
  | d0 :: _ =>
    match m.shift_coord startCoord d0 with
    | Option.none => .err (.invalidStartCoordinate startCoord)
    | some c0 => do
      let cleanNodes ← part2Loop m fuel c0 d0.opposite startCoord clean0
      PipeMap.count_internal_tiles ⟨cleanNodes, m.height, m.width⟩
  | [] => .panicked

/-- The `main` of `src/prob10/src/main.rs`, as the list of lines printed to
standard output paired with the process outcome; the build-time embedded
`INPUT` text is a parameter. -/
def mainOut (input : String) (fuel : Nat) : List String × RRes Err10 Unit :=
  match part1 input fuel with
  | .ok v1 =>
    match part2 input fuel with
    | .ok v2 =>
      (["## Part 1", " > " ++ toString v1, "## Part 2", " > " ++ toString v2],
        .ok ())
    | .err e => (["## Part 1", " > " ++ toString v1, "## Part 2"], .err e)
    | .panicked => (["## Part 1", " > " ++ toString v1, "## Part 2"], .panicked)
    | .noFuel => (["## Part 1", " > " ++ toString v1, "## Part 2"], .noFuel)
  | .err e => (["## Part 1"], .err e)
  | .panicked => (["## Part 1"], .panicked)
  | .noFuel => (["## Part 1"], .noFuel)

/-- Modelled from the spec: the bundled part-1 example input
(`src/prob10/part_1_test.txt` is not under `src/`).  This is the canonical
pipe-loop example whose farthest point is 8 steps away; it matches the
repository's auxiliary test assertions (start at `(2, 0)`, start directions
south and east, the probes of `test_pipemap_get_next_node`). -/
def part1TestInput : String :=
  "..F7.\n" ++
  ".FJ|.\n" ++
  "SJ.L7\n" ++
  "|F--J\n" ++
  "LJ..."

/-- Modelled from the spec: the bundled part-2 example input
(`src/prob10/part_2_test.txt` is not under `src/`).  A pipe loop enclosing
exactly 8 tiles, with the start marker on a vertical segment of the loop:
`count_internal_tiles` ray-casts `Start` as a vertical pipe and the source
notes "the start in my input is a vertical pipe", so the bundled input
satisfies that assumption for its expected answer 8. -/
def part2TestInput : String :=
  "F7F---7\n" ++
  "|LJ...|\n" ++
  "S.....|\n" ++
  "L-----J"

end prob10

namespace prob16

/-- The `Node` cell enumeration of `src/prob16/src/main.rs`. -/
inductive Node where
  | empty
  | horizontal
  | vertical
  | up
  | down
  deriving DecidableEq, Repr

/-- The beam travel directions of `src/prob16/src/main.rs`. -/
inductive Direction where
  | up
  | left
  | down
  | right
  deriving DecidableEq, Repr

/-- The error values produced by `src/prob16/src/main.rs`. -/
inductive Err16 where
  | unknownNode (c : Char)
  deriving DecidableEq, Repr

/-- A beam state: the current cell and the direction taken next. -/
abbrev Beam : Type := (Nat × Nat) × Direction

/-- `impl TryFrom<char> for Node`. -/
def Node.tryFrom (c : Char) : RRes Err16 Node :=
  if c = '.' then .ok .empty
  else if c = '-' then .ok .horizontal
  else if c = '|' then .ok .vertical
  else if c = '/' then .ok .up
  else if c = '\\' then .ok .down
  else .err (.unknownNode c)

/-- The `Layout` struct. -/
structure Layout where
  grid : List (List Node)
  deriving DecidableEq, Repr

/-- `impl FromStr for Layout`, given the already-split lines. -/
def layoutFromLines (lines : List String) : RRes Err16 Layout :=
  match collectE (fun line => collectE Node.tryFrom line.data) lines with
  | .ok grid => .ok ⟨grid⟩
  | .err e => .err e
  | .panicked => .panicked
  | .noFuel => .noFuel

/-- `impl FromStr for Layout` on the raw input text. -/
def layoutFromStr (s : String) : RRes Err16 Layout :=
  layoutFromLines (rustLines s)

/-- `get_next_coordinate`, with wrapping `usize` arithmetic. -/
def get_next_coordinate : Beam → Nat × Nat
  | ((x, y), .right) => (x, wadd64 y 1)
  | ((x, y), .down) => (wadd64 x 1, y)
  | ((x, y), .left) => (x, wsub64 y 1)
  | ((x, y), .up) => (wsub64 x 1, y)

/-- `Layout::beam_going_off_grid` (the dimension subtractions wrap like the
source's `usize` arithmetic; `self.grid[0]` is read as the first row or the
empty row, the source only calls this on a non-empty grid). -/
def beam_going_off_grid (l : Layout) : Beam → Bool
  | ((x, _), .down) => decide (wsub64 l.grid.length 1 ≤ x)
  | ((_, y), .right) => decide (wsub64 (l.grid.headD []).length 1 ≤ y)
  | ((x, _), .up) => decide (x = 0)
  | ((_, y), .left) => decide (y = 0)

/-- Cell lookup `self.grid[x][y]`; `none` models the source's panic on an
out-of-bounds index. -/
def nodeAt (grid : List (List Node)) (c : Nat × Nat) : Option Node :=
  match grid.get? c.1 with
  | Option.none => Option.none
  | some row => row.get? c.2

/-- The beams pushed for one processed beam, in the source's push order: the
node just entered, the direction the beam was travelling, and the entered
coordinate. -/
def newBeams (node : Node) (dir : Direction) (coord : Nat × Nat) : List Beam :=
  match node, dir with
  | .empty, d => [(coord, d)]
  | .horizontal, d =>
    if d = .right ∨ d = .left then [(coord, d)]
    else [(coord, .left), (coord, .right)]
  | .vertical, d =>
    if d = .up ∨ d = .down then [(coord, d)]
    else [(coord, .up), (coord, .down)]
  | .up, .right => [(coord, .up)]
  | .up, .down => [(coord, .left)]
  | .up, .left => [(coord, .down)]
  | .up, .up => [(coord, .right)]
  | .down, .right => [(coord, .down)]
  | .down, .down => [(coord, .right)]
  | .down, .left => [(coord, .up)]
  | .down, .up => [(coord, .left)]

/-- The `while let Some(beam) = queue.pop_front()` loop of `Layout::beam`, as
fuelled recursion over the queue and the set of beam states already taken
(kept as a duplicate-free list). -/
def beamLoop (l : Layout) : Nat → List Beam → List Beam → RRes Err16 (List Beam)
  | _, [], paths => .ok paths
  | 0, _ :: _, _ => .noFuel
  | fuel + 1, b :: queue, paths =>
    if b ∈ paths then beamLoop l fuel queue paths
    else if beam_going_off_grid l b then beamLoop l fuel queue (b :: paths)
    else
      match nodeAt l.grid (get_next_coordinate b) with
      | Option.none => .panicked
      | some node =>
        beamLoop l fuel (queue ++ newBeams node b.2 (get_next_coordinate b))
          (b :: paths)

/-- The tail of `Layout::beam` after the first node's handling: run the flood
loop from the seeded queue and count the distinct energized coordinates. -/
def beamRun (l : Layout) (fuel : Nat) (d : Direction) : RRes Err16 Nat :=
  match beamLoop l fuel [((0, 0), d)] [] with
  | .ok paths => .ok ((paths.map Prod.fst).dedup.length)
  | .err e => .err e
  | .panicked => .panicked
  | .noFuel => .noFuel

/-- `Layout::beam`: seed the beam at `(0, 0)` heading right (with the source's
special handling of the first node), run the flood loop, and count the
distinct energized coordinates. -/
def Layout.beam (l : Layout) (fuel : Nat) : RRes Err16 Nat :=
  match nodeAt l.grid (0, 0) with
  | Option.none => .panicked
  | some first =>
    match first with
    | .up => .ok 1
    | .empty | .horizontal => beamRun l fuel .right
    | .down | .vertical => beamRun l fuel .down

/-- Fuel sufficient for `beamLoop` to drain its queue on the layout's grid:
three units per beam state (4 per cell) plus slack for the initial queue. -/
def beamFuel (l : Layout) : Nat :=
  12 * l.grid.length * (l.grid.headD []).length + 2

/-- The four beam directions as a finite set. -/
def dirAll : Finset Direction :=
  {Direction.up, Direction.left, Direction.down, Direction.right}

/-- All beam states over an `h × w` grid. -/
def stateF (h w : Nat) : Finset Beam :=
  (Finset.range h ×ˢ Finset.range w) ×ˢ dirAll

/-- The beam states over an `h × w` grid not yet recorded in `paths`. -/
def unv (h w : Nat) (paths : List Beam) : Finset Beam :=
  (stateF h w).filter (fun b => b ∉ paths)

/-- `part1` of `src/prob16/src/main.rs`. -/
def part1 (input : String) (fuel : Nat) : RRes Err16 Nat := do
  let layout ← layoutFromStr input
  layout.beam fuel

/-- `part2` of `src/prob16/src/main.rs`: the constant `Ok(0)`. -/
def part2 (_input : String) : RRes Err16 Nat := .ok 0

/-- The `main` of `src/prob16/src/main.rs`, as the printed lines paired with
the process outcome; the build-time embedded `INPUT` text is a parameter. -/
def mainOut (input : String) (fuel : Nat) : List String × RRes Err16 Unit :=
  match part1 input fuel with
  | .ok v1 =>
    match part2 input with
    | .ok v2 =>
      (["## Part 1", " > " ++ toString v1, "## Part 2", " > " ++ toString v2],
        .ok ())
    | .err e => (["## Part 1", " > " ++ toString v1, "## Part 2"], .err e)
    | .panicked => (["## Part 1", " > " ++ toString v1, "## Part 2"], .panicked)
    | .noFuel => (["## Part 1", " > " ++ toString v1, "## Part 2"], .noFuel)
  | .err e => (["## Part 1"], .err e)
  | .panicked => (["## Part 1"], .panicked)
  | .noFuel => (["## Part 1"], .noFuel)

/-- Modelled from the spec: the bundled example input
(`src/prob16/test.txt` is not under `src/`), the canonical light-beam example
with 46 energized tiles. -/
def testInput : String :=
  ".|...\\....\n" ++
  "|.-.\\.....\n" ++
  ".....|-...\n" ++
  "........|.\n" ++
  "..........\n" ++
  ".........\\\n" ++
  "..../.\\\\..\n" ++
  ".-.-/..|..\n" ++
  ".|....-|.\\\n" ++
  "..//.|...."

end prob16

namespace prob3

/-- The error values produced by `src/prob3/src/main.rs` (shared
`advent_core` error constructors, one per site). -/
inductive Err3 where
  | invalidDigit (c : Char)
  | invalidCoordinate (c : Nat × Nat)
  deriving DecidableEq, Repr

/-- The `Schematic` struct: the raw rows with their cached dimensions (the
width is the byte length of the first row, as `String::len` counts bytes). -/
structure Schematic where
  rows : List String
  width : Nat
  height : Nat
  deriving DecidableEq, Repr

/-- `Schematic::from_str`: keep the lines; `rows[0]` panics when the input has
no lines. -/
def schematicFromStr (input : String) : RRes Err3 Schematic :=
  match rustLines input with
  | [] => .panicked
  | r :: rs => .ok ⟨r :: rs, r.utf8ByteSize, (r :: rs).length⟩

/-- The `Symbol` trait on `char`: neither an ASCII digit nor `'.'`. -/
def isSymbol (c : Char) : Bool := !c.isDigit && !(c = '.')

/-- The eight probe directions of `src/prob3/src/main.rs`. -/
inductive Direction3 where
  | above
  | below
  | right
  | left
  | aboveLeft
  | aboveRight
  | belowLeft
  | belowRight
  deriving DecidableEq, Repr

/-- `Schematic::get_char`: the guard arms of the source's `match`, in order,
then the neighbour coordinate (the guards make the `usize` subtractions
exact), the second bounds check, and the character lookup.  `panicked` models
the `rows[x]` index panic (reachable only when the cached `height` overstates
`rows.len()`); a row shorter than the probed column yields the
`invalid_coordinate` error of `chars().nth(y).ok_or(…)`. -/
def get_char (s : Schematic) (d : Direction3) (ri ci : Nat) :
    RRes Err3 (Option Char) :=
  if (d = .above ∨ d = .aboveLeft ∨ d = .aboveRight) ∧ ri = 0 then
    .ok Option.none
  else if (d = .below ∨ d = .belowLeft ∨ d = .belowRight) ∧
      wsub64 s.height 1 ≤ ri then
    .ok Option.none
  else if (d = .left ∨ d = .aboveLeft ∨ d = .belowLeft) ∧ ci = 0 then
    .ok Option.none
  else if (d = .right ∨ d = .aboveRight ∨ d = .belowRight) ∧
      wsub64 s.width 1 ≤ ci then
    .ok Option.none
  else
    let xy : Nat × Nat :=
      match d with
      | .above => (ri - 1, ci)
      | .below => (ri + 1, ci)
      | .right => (ri, ci + 1)
      | .left => (ri, ci - 1)
      | .aboveLeft => (ri - 1, ci - 1)
      | .aboveRight => (ri - 1, ci + 1)
      | .belowLeft => (ri + 1, ci - 1)
      | .belowRight => (ri + 1, ci + 1)
    if s.height ≤ xy.1 ∨ s.width ≤ xy.2 then .ok Option.none
    else
      match s.rows.get? xy.1 with
      | Option.none => .panicked
      | some row =>
        match row.data.get? xy.2 with
        | Option.none => .err (.invalidCoordinate (ri, ci))
        | some c => .ok (some c)

/-- The probe order of `Schematic::is_adjacent_to_symbol`. -/
def allDirections : List Direction3 :=
  [.above, .below, .right, .left, .aboveLeft, .aboveRight, .belowLeft,
    .belowRight]

/-- The loop of `Schematic::is_adjacent_to_symbol` over a direction list. -/
def adjacentLoop (s : Schematic) (ri ci : Nat) :
    List Direction3 → RRes Err3 Bool
  | [] => .ok false
  | d :: ds =>
    match get_char s d ri ci with
    | .err e => .err e
    | .panicked => .panicked
    | .noFuel => .noFuel
    | .ok (some c) => if isSymbol c then .ok true else adjacentLoop s ri ci ds
    | .ok Option.none => adjacentLoop s ri ci ds

/-- `Schematic::is_adjacent_to_symbol`. -/
def is_adjacent_to_symbol (s : Schematic) (ri ci : Nat) : RRes Err3 Bool :=
  adjacentLoop s ri ci allDirections

/-- `char::to_digit(10)`. -/
def toDigit (c : Char) : Option Nat :=
  if c.isDigit then some (c.toNat - 48) else Option.none

/-- The inner column loop of `Schematic::get_part_numbers`: thread the running
`u32` number, the `is_part_number` flag and the accumulated list across the
characters of one row. -/
def rowLoop (s : Schematic) (ri : Nat) :
    List Char → Nat → Nat → Bool → List Nat → RRes Err3 (List Nat)
  | [], _, _, _, acc => .ok acc
  | c :: cs, ci, number, isPart, acc =>
    if c.isDigit then
      match toDigit c with
      | Option.none => .err (.invalidDigit c)
      | some d =>
        match is_adjacent_to_symbol s ri ci with
        | .err e => .err e
        | .panicked => .panicked
        | .noFuel => .noFuel
        | .ok adj =>
          if ci = wsub64 s.width 1 ∧ 0 < wadd32 (number * 10 % w32) d then
            rowLoop s ri cs (ci + 1) 0 false
              (if isPart || adj then acc ++ [wadd32 (number * 10 % w32) d]
                else acc)
          else rowLoop s ri cs (ci + 1) (wadd32 (number * 10 % w32) d)
            (isPart || adj) acc
    else
      if 0 < number then
        rowLoop s ri cs (ci + 1) 0 false (if isPart then acc ++ [number] else acc)
      else rowLoop s ri cs (ci + 1) number isPart acc

/-- The row loop of `Schematic::get_part_numbers` (the number state is local
to each row; the accumulated list is shared). -/
def rowsLoop (s : Schematic) : List String → Nat → List Nat → RRes Err3 (List Nat)
  | [], _, acc => .ok acc
  | r :: rs, ri, acc =>
    match rowLoop s ri r.data 0 0 false acc with
    | .err e => .err e
    | .panicked => .panicked
    | .noFuel => .noFuel
    | .ok acc' => rowsLoop s rs (ri + 1) acc'

/-- `Schematic::get_part_numbers`. -/
def get_part_numbers (s : Schematic) : RRes Err3 (List Nat) :=
  rowsLoop s s.rows 0 []

/-- `part1` of `src/prob3/src/main.rs`: the `u32` sum of the part numbers. -/
def part1 (input : String) : RRes Err3 Nat := do
  let s ← schematicFromStr input
  let ns ← get_part_numbers s
  pure (ns.foldl wadd32 0)

/-- `part2` of `src/prob3/src/main.rs`: the constant `Ok(0)`. -/
def part2 (_input : String) : RRes Err3 Nat := .ok 0

/-- The `main` of `src/prob3/src/main.rs`, as the printed lines paired with
the process outcome; the build-time embedded `INPUT` text is a parameter. -/
def mainOut (input : String) : List String × RRes Err3 Unit :=
  match part1 input with
  | .ok v1 =>
    match part2 input with
    | .ok v2 =>
      (["## Part 1", " > " ++ toString v1, "## Part 2", " > " ++ toString v2],
        .ok ())
    | .err e => (["## Part 1", " > " ++ toString v1, "## Part 2"], .err e)
    | .panicked => (["## Part 1", " > " ++ toString v1, "## Part 2"], .panicked)
    | .noFuel => (["## Part 1", " > " ++ toString v1, "## Part 2"], .noFuel)
  | .err e => (["## Part 1"], .err e)
  | .panicked => (["## Part 1"], .panicked)
  | .noFuel => (["## Part 1"], .noFuel)

/-- Modelled from the spec: the bundled part-1 example input
(`src/prob3/part_1_test.txt` is not under `src/`), the canonical engine
schematic example with part-number sum 4361. -/
def part1TestInput : String :=
  "467..114..\n" ++
  "...*......\n" ++
  "..35..633.\n" ++
  "......#...\n" ++
  "617*......\n" ++
  ".....+.58.\n" ++
  "..592.....\n" ++
  "......755.\n" ++
  "...$.*....\n" ++
  ".664.598.."

end prob3

/-! ### Validity of single cell characters -/

/-- The characters `prob10` recognizes as pipe-map cells. -/
def isValidPipeChar (c : Char) : Bool :=
  c ∈ ['-', '|', 'L', 'J', 'F', '7', 'S', '.']

/-- The characters `prob16` recognizes as layout cells. -/
def isValidNodeChar (c : Char) : Bool :=
  c ∈ ['.', '-', '|', '/', '\\']

theorem pipeFromChar_ok_iff (c : Char) :
    (∃ p, prob10.Pipe.fromChar c = .ok p) ↔ isValidPipeChar c = true := by
  unfold prob10.Pipe.fromChar isValidPipeChar
  split_ifs <;> simp_all

theorem pipeFromChar_ok_or_err (c : Char) :
    (∃ p, prob10.Pipe.fromChar c = .ok p) ∨
      (∃ e, prob10.Pipe.fromChar c = .err e) := by
  unfold prob10.Pipe.fromChar
  split_ifs <;> first | exact .inl ⟨_, rfl⟩ | exact .inr ⟨_, rfl⟩

theorem nodeTryFrom_ok_iff (c : Char) :
    (∃ p, prob16.Node.tryFrom c = .ok p) ↔ isValidNodeChar c = true := by
  unfold prob16.Node.tryFrom isValidNodeChar
  split_ifs <;> simp_all

theorem nodeTryFrom_ok_or_err (c : Char) :
    (∃ p, prob16.Node.tryFrom c = .ok p) ∨
      (∃ e, prob16.Node.tryFrom c = .err e) := by
  unfold prob16.Node.tryFrom
  split_ifs <;> first | exact .inl ⟨_, rfl⟩ | exact .inr ⟨_, rfl⟩

/-! ### `collectE` classification -/

theorem collectE_ok_or_err {f : α → RRes ε β}
    (hf : ∀ x, (∃ y, f x = .ok y) ∨ (∃ e, f x = .err e)) :
    ∀ xs, (∃ ys, collectE f xs = .ok ys) ∨ (∃ e, collectE f xs = .err e) := by
  intro xs
  induction xs with
  | nil => exact .inl ⟨[], rfl⟩
  | cons x xs ih =>
    rcases hf x with ⟨y, hy⟩ | ⟨e, he⟩
    · rcases ih with ⟨ys, hys⟩ | ⟨e, he⟩
      · exact .inl ⟨y :: ys, by simp [collectE, hy, hys]⟩
      · exact .inr ⟨e, by simp [collectE, hy, he]⟩
    · exact .inr ⟨e, by simp [collectE, he]⟩

theorem collectE_ok_iff {f : α → RRes ε β}
    (hf : ∀ x, (∃ y, f x = .ok y) ∨ (∃ e, f x = .err e)) :
    ∀ xs, (∃ ys, collectE f xs = .ok ys) ↔ ∀ x ∈ xs, ∃ y, f x = .ok y := by
  intro xs
  induction xs with
  | nil => simp [collectE]
  | cons x xs ih =>
    constructor
    · rintro ⟨ys, hys⟩
      unfold collectE at hys
      rcases hf x with ⟨y, hy⟩ | ⟨e, he⟩
      · rw [hy] at hys
        rcases collectE_ok_or_err hf xs with ⟨ys', hys'⟩ | ⟨e, he⟩
        · intro z hz
          rcases List.mem_cons.mp hz with rfl | hz'
          · exact ⟨y, hy⟩
          · exact (ih.mp ⟨ys', hys'⟩) z hz'
        · rw [he] at hys; cases hys
      · rw [he] at hys; cases hys
    · intro h
      rcases h x (List.mem_cons_self x xs) with ⟨y, hy⟩
      rcases ih.mpr (fun z hz => h z (List.mem_cons_of_mem x hz)) with ⟨ys, hys⟩
      exact ⟨y :: ys, by simp [collectE, hy, hys]⟩

theorem collectE_err_iff {f : α → RRes ε β}
    (hf : ∀ x, (∃ y, f x = .ok y) ∨ (∃ e, f x = .err e)) :
    ∀ xs, (∃ e, collectE f xs = .err e) ↔ ¬ ∀ x ∈ xs, ∃ y, f x = .ok y := by
  intro xs
  constructor
  · rintro ⟨e, he⟩ hall
    rcases (collectE_ok_iff hf xs).mpr hall with ⟨ys, hys⟩
    rw [hys] at he; cases he
  · intro h
    rcases collectE_ok_or_err hf xs with hok | herr
    · exact absurd ((collectE_ok_iff hf xs).mp hok) h
    · exact herr

theorem collectE_ok_length {f : α → RRes ε β} :
    ∀ xs ys, collectE f xs = .ok ys → ys.length = xs.length := by
  intro xs
  induction xs with
  | nil => intro ys h; cases h; rfl
  | cons x xs ih =>
    intro ys h
    unfold collectE at h
    cases hx : f x <;> rw [hx] at h <;> try cases h
    cases hxs : collectE f xs <;> rw [hxs] at h <;> cases h
    simp [ih _ hxs]

/-! ### Claims C1, C2, C3, C9 -/

/-- C1: for the bundled prob10 example inputs (modelled from the spec), the
pipe-loop puzzle returns the expected answers: `part1` on the part-1 example
returns 8 steps and `part2` on the part-2 example returns 8 enclosed tiles
(the fuel `64` exceeds both loops' lengths; the loops converge well before). -/
theorem claim_C1 :
    prob10.part1 prob10.part1TestInput 64 = .ok 8 ∧
      prob10.part2 prob10.part2TestInput 64 = .ok 8 := by
  constructor <;> decide

/-- C2: for the bundled prob16 example input (modelled from the spec), the
light-beam flood fill counts 46 distinct energized coordinates (the fuel
`1202` is `beamFuel` of the 10 × 10 grid). -/
theorem claim_C2 : prob16.part1 prob16.testInput 1202 = .ok 46 := by decide

/-- C3: for the bundled prob3 example input (modelled from the spec), `part1`
sums the part numbers — the numbers with a digit 8-directionally adjacent to
a symbol — to 4361. -/
theorem claim_C3 : prob3.part1 prob3.part1TestInput = .ok 4361 := by decide

/-- C9: for every input string, the part-2 functions of prob16 and prob3
return `Ok(0)`: the second printed answer of these two puzzles is the
constant 0. -/
theorem claim_C9 (s : String) :
    prob16.part2 s = .ok 0 ∧ prob3.part2 s = .ok 0 :=
  ⟨rfl, rfl⟩

/-! ### Claim C4: parse failures -/

theorem layoutFromLines_ok_iff (L : List String) :
    (∃ l, prob16.layoutFromLines L = .ok l) ↔
      ∀ line ∈ L, ∀ c ∈ line.data, isValidNodeChar c = true := by
  have hrow : ∀ line : String,
      (∃ ys, collectE prob16.Node.tryFrom line.data = .ok ys) ∨
        (∃ e, collectE prob16.Node.tryFrom line.data = .err e) :=
    fun line => collectE_ok_or_err nodeTryFrom_ok_or_err line.data
  have h1 : (∃ l, prob16.layoutFromLines L = .ok l) ↔
      (∃ gs, collectE (fun line => collectE prob16.Node.tryFrom line.data) L
        = .ok gs) := by
    unfold prob16.layoutFromLines
    cases h : collectE (fun line => collectE prob16.Node.tryFrom line.data) L <;>
      simp
  rw [h1, collectE_ok_iff hrow]
  simp only [collectE_ok_iff nodeTryFrom_ok_or_err, nodeTryFrom_ok_iff]

theorem layoutFromLines_err_iff (L : List String) :
    (∃ e, prob16.layoutFromLines L = .err e) ↔
      ¬ ∀ line ∈ L, ∀ c ∈ line.data, isValidNodeChar c = true := by
  have hrow : ∀ line : String,
      (∃ ys, collectE prob16.Node.tryFrom line.data = .ok ys) ∨
        (∃ e, collectE prob16.Node.tryFrom line.data = .err e) :=
    fun line => collectE_ok_or_err nodeTryFrom_ok_or_err line.data
  have h1 : (∃ e, prob16.layoutFromLines L = .err e) ↔
      (∃ e, collectE (fun line => collectE prob16.Node.tryFrom line.data) L
        = .err e) := by
    unfold prob16.layoutFromLines
    cases h : collectE (fun line => collectE prob16.Node.tryFrom line.data) L <;>
      simp
  rw [h1, collectE_err_iff hrow]
  simp only [collectE_ok_iff nodeTryFrom_ok_or_err, nodeTryFrom_ok_iff]

theorem pipeMapFromLines_ok_iff (L : List String) (hL : L ≠ []) :
    (∃ m, prob10.pipeMapFromLines L = .ok m) ↔
      ∀ line ∈ L, ∀ c ∈ line.data, isValidPipeChar c = true := by
  have hrow : ∀ line : String,
      (∃ ys, collectE prob10.Pipe.fromChar line.data = .ok ys) ∨
        (∃ e, collectE prob10.Pipe.fromChar line.data = .err e) :=
    fun line => collectE_ok_or_err pipeFromChar_ok_or_err line.data
  have h1 : (∃ m, prob10.pipeMapFromLines L = .ok m) ↔
      (∃ gs, collectE (fun line => collectE prob10.Pipe.fromChar line.data) L
        = .ok gs) := by
    unfold prob10.pipeMapFromLines
    cases h : collectE (fun line => collectE prob10.Pipe.fromChar line.data) L
    case ok gs =>
      cases gs with
      | nil =>
        have hlen := collectE_ok_length L [] h
        have : L = [] := List.length_eq_zero.mp (by simpa using hlen.symm)
        exact absurd this hL
      | cons r rs => simp [h]
    case err e => simp
    case panicked => simp
    case noFuel => simp
  rw [h1, collectE_ok_iff hrow]
  simp only [collectE_ok_iff pipeFromChar_ok_or_err, pipeFromChar_ok_iff]

theorem pipeMapFromLines_err_iff (L : List String) :
    (∃ e, prob10.pipeMapFromLines L = .err e) ↔
      ¬ ∀ line ∈ L, ∀ c ∈ line.data, isValidPipeChar c = true := by
  have hrow : ∀ line : String,
      (∃ ys, collectE prob10.Pipe.fromChar line.data = .ok ys) ∨
        (∃ e, collectE prob10.Pipe.fromChar line.data = .err e) :=
    fun line => collectE_ok_or_err pipeFromChar_ok_or_err line.data
  have h1 : (∃ e, prob10.pipeMapFromLines L = .err e) ↔
      (∃ e, collectE (fun line => collectE prob10.Pipe.fromChar line.data) L
        = .err e) := by
    unfold prob10.pipeMapFromLines
    cases h : collectE (fun line => collectE prob10.Pipe.fromChar line.data) L
    case ok gs => cases gs <;> simp
    case err e => simp
    case panicked => simp
    case noFuel => simp
  rw [h1, collectE_err_iff hrow]
  simp only [collectE_ok_iff pipeFromChar_ok_or_err, pipeFromChar_ok_iff]

/-- C4 counterexample: on the empty input every character of every line is
(vacuously) recognized, yet prob10's parser does not return `Ok` — it panics
indexing `nodes[0]` — so "returns Ok exactly when every character is
recognized" fails for every input string. -/
theorem claim_C4_counterexample :
    prob10.pipeMapFromStr "" = .panicked ∧ rustLines "" = ([] : List String) := by
  constructor <;> decide

/-- C4 (amended): prob16's `Layout` parsing returns `Ok` exactly when every
character of every line is recognized and `Err` otherwise, for every input
string; prob10's `PipeMap` parsing satisfies the same equivalence for every
input whose line list is non-empty (on the empty input it panics indexing
`nodes[0]` instead of returning a value), and returns `Err` exactly when some
character is unrecognized. -/
theorem claim_C4_amended (s : String) :
    ((∃ l, prob16.layoutFromStr s = .ok l) ↔
      ∀ line ∈ rustLines s, ∀ c ∈ line.data, isValidNodeChar c = true)
    ∧ ((∃ e, prob16.layoutFromStr s = .err e) ↔
      ¬ ∀ line ∈ rustLines s, ∀ c ∈ line.data, isValidNodeChar c = true)
    ∧ (rustLines s ≠ [] →
      ((∃ m, prob10.pipeMapFromStr s = .ok m) ↔
        ∀ line ∈ rustLines s, ∀ c ∈ line.data, isValidPipeChar c = true))
    ∧ ((∃ e, prob10.pipeMapFromStr s = .err e) ↔
      ¬ ∀ line ∈ rustLines s, ∀ c ∈ line.data, isValidPipeChar c = true) :=
  ⟨layoutFromLines_ok_iff (rustLines s),
    layoutFromLines_err_iff (rustLines s),
    fun hL => pipeMapFromLines_ok_iff (rustLines s) hL,
    pipeMapFromLines_err_iff (rustLines s)⟩

/-- C4 witness: the amended equivalences applied at concrete inputs — a fully
valid prob10 input parses to `Ok`, and an invalid character makes prob16's
parser return `Err`. -/
theorem claim_C4_amended_witness :
    (∃ m, prob10.pipeMapFromStr "S7\nLJ" = RRes.ok m) ∧
      (∃ e, prob16.layoutFromStr "x" = RRes.err e) :=
  ⟨((claim_C4_amended "S7\nLJ").2.2.1 (by decide)).mpr (by decide),
    ((claim_C4_amended "x").2.1).mpr (by decide)⟩

/-! ### Claim C5: `find_start` -/

theorem findStartRow_none_iff (r : List prob10.Pipe) :
    prob10.findStartRow r = Option.none ↔ prob10.Pipe.start ∉ r := by
  induction r with
  | nil => simp [prob10.findStartRow]
  | cons p ps ih =>
    by_cases hp : p = prob10.Pipe.start
    · subst hp
      simp [prob10.findStartRow]
    · simp [prob10.findStartRow, hp, Option.map_eq_none', ih,
        Ne.symm hp]

theorem findStartRow_some (r : List prob10.Pipe) (y : Nat)
    (h : prob10.findStartRow r = some y) :
    r.get? y = some prob10.Pipe.start ∧
      ∀ y' < y, r.get? y' ≠ some prob10.Pipe.start := by
  induction r generalizing y with
  | nil => cases h
  | cons p ps ih =>
    by_cases hp : p = prob10.Pipe.start
    · subst hp
      unfold prob10.findStartRow at h
      simp at h
      subst h
      exact ⟨rfl, by omega⟩
    · unfold prob10.findStartRow at h
      rw [if_neg hp] at h
      cases hy : prob10.findStartRow ps with
      | none => rw [hy] at h; cases h
      | some y0 =>
        rw [hy] at h
        simp at h
        subst h
        rcases ih y0 hy with ⟨h1, h2⟩
        refine ⟨by simpa using h1, ?_⟩
        intro y' hy'
        cases y' with
        | zero => simpa using hp
        | succ k =>
          simpa using h2 k (by omega)

theorem findStartAux_none_iff (g : List (List prob10.Pipe)) :
    prob10.findStartAux g = Option.none ↔
      ∀ r ∈ g, prob10.Pipe.start ∉ r := by
  induction g with
  | nil => simp [prob10.findStartAux]
  | cons r rs ih =>
    cases hr : prob10.findStartRow r with
    | none =>
      simp [prob10.findStartAux, hr, Option.map_eq_none', ih,
        (findStartRow_none_iff r).mp hr]
    | some y =>
      have : prob10.Pipe.start ∈ r := by
        by_contra hmem
        rw [← findStartRow_none_iff] at hmem
        rw [hmem] at hr; cases hr
      simp [prob10.findStartAux, hr, this]

theorem findStartAux_some (g : List (List prob10.Pipe)) (x y : Nat)
    (h : prob10.findStartAux g = some (x, y)) :
    (∃ r, g.get? x = some r ∧ r.get? y = some prob10.Pipe.start ∧
        ∀ y' < y, r.get? y' ≠ some prob10.Pipe.start) ∧
      ∀ x' < x, ∀ r, g.get? x' = some r → prob10.Pipe.start ∉ r := by
  induction g generalizing x y with
  | nil => cases h
  | cons r rs ih =>
    cases hr : prob10.findStartRow r with
    | some y0 =>
      unfold prob10.findStartAux at h
      rw [hr] at h
      simp at h
      obtain ⟨hx, hy⟩ := h
      subst hx; subst hy
      exact ⟨⟨r, rfl, (findStartRow_some r y0 hr).1,
        (findStartRow_some r y0 hr).2⟩, by omega⟩
    | none =>
      unfold prob10.findStartAux at h
      rw [hr] at h
      cases haux : prob10.findStartAux rs with
      | none => rw [haux] at h; cases h
      | some c =>
        rw [haux] at h
        simp at h
        obtain ⟨hx, hy⟩ := h
        obtain ⟨c1, c2⟩ := c
        rcases ih c1 c2 haux with ⟨⟨row, hrow, hst, hfirst⟩, hprev⟩
        subst hx; subst hy
        constructor
        · exact ⟨row, by simpa using hrow, hst, hfirst⟩
        · intro x' hx' row' hrow'
          cases x' with
          | zero =>
            have hr' : some r = some row' := hrow'
            injection hr' with h
            exact h ▸ (findStartRow_none_iff r).mp hr
          | succ k =>
            exact hprev k (by omega) row' hrow'

/-- C5: for every parsed pipe map, `find_start` returns an error exactly when
the grid contains no `Start` tile; when one exists it returns the coordinate
of the first `Start` tile in row-major order (no earlier row contains a
`Start`, and no earlier column of its row holds one). -/
theorem claim_C5 (m : prob10.PipeMap) :
    ((∃ e, m.find_start = .err e) ↔ ∀ r ∈ m.nodes, prob10.Pipe.start ∉ r)
    ∧ ∀ x y, m.find_start = .ok (x, y) →
      (∃ r, m.nodes.get? x = some r ∧ r.get? y = some prob10.Pipe.start ∧
          ∀ y' < y, r.get? y' ≠ some prob10.Pipe.start) ∧
        ∀ x' < x, ∀ r, m.nodes.get? x' = some r → prob10.Pipe.start ∉ r := by
  constructor
  · rw [← findStartAux_none_iff]
    unfold prob10.PipeMap.find_start
    cases h : prob10.findStartAux m.nodes <;> simp
  · intro x y h
    unfold prob10.PipeMap.find_start at h
    cases haux : prob10.findStartAux m.nodes with
    | none => rw [haux] at h; cases h
    | some c =>
      rw [haux] at h
      simp at h
      subst h
      exact findStartAux_some m.nodes x y haux

/-- C5 witness: `find_start` on the parsed part-1 example returns `(2, 0)`,
and the characterization applied there exhibits the `Start` tile at that
coordinate. -/
theorem claim_C5_witness :
    ∃ r, (prob10.PipeMap.mk
        [[prob10.Pipe.start, prob10.Pipe.cornerSouthWest],
          [prob10.Pipe.cornerNorthEast, prob10.Pipe.cornerNorthWest]] 2 2).nodes.get? 0
        = some r ∧ r.get? 0 = some prob10.Pipe.start ∧
        ∀ y' < 0, r.get? y' ≠ some prob10.Pipe.start :=
  ((claim_C5 (prob10.PipeMap.mk
      [[prob10.Pipe.start, prob10.Pipe.cornerSouthWest],
        [prob10.Pipe.cornerNorthEast, prob10.Pipe.cornerNorthWest]] 2 2)).2 0 0
    (by decide)).1

/-! ### Claim C6: `get_next_node` stays on the grid -/

theorem get_next_node_ok_inbounds (m : prob10.PipeMap) (coord : Nat × Nat)
    (dir : prob10.CardinalDirection) (c : Nat × Nat)
    (d : prob10.CardinalDirection)
    (h : m.get_next_node coord dir = .ok (c, d)) :
    c.1 < m.height ∧ c.2 < m.width := by
  unfold prob10.PipeMap.get_next_node at h
  cases hg : m.get_node coord <;> simp only [hg] at h
  case err => cases h
  case panicked => cases h
  case noFuel => cases h
  case ok node =>
  split at h
  · cases h
  · cases hnd : prob10.nextDirection node dir <;> simp only [hnd] at h
    case none => cases h
    case some nd =>
    split at h
    · cases h
    · rename_i hbound
      cases hg2 : m.get_node (prob10.shiftWrap coord nd) <;> simp only [hg2] at h
      case err => cases h
      case panicked => cases h
      case noFuel => cases h
      case ok nn =>
      split at h
      · cases h
      · injection h with h1
        have hc : prob10.shiftWrap coord nd = c := congrArg Prod.fst h1
        push_neg at hbound
        rw [← hc]
        exact hbound

/-- C6: for a pipe map and a coordinate holding a non-`Start`, non-empty
pipe, `get_next_node` either returns a coordinate inside the grid or an error
value; a step whose next coordinate would leave the grid — including wrapping
north from row 0 or west from column 0 — is surfaced as the
out-of-bounds-coordinate error (the `usize` subtraction wraps and the bounds
check catches the huge coordinate; the dimension bounds `2 ^ 64` hold for any
actual Rust `Vec`). -/
theorem claim_C6 (m : prob10.PipeMap) (coord : Nat × Nat)
    (dir : prob10.CardinalDirection) (p : prob10.Pipe)
    (hget : m.get_node coord = .ok p)
    (hn : p ≠ prob10.Pipe.none) (hs : p ≠ prob10.Pipe.start)
    (hH : m.height < 2 ^ 64) (hW : m.width < 2 ^ 64) :
    (∀ c d, m.get_next_node coord dir = .ok (c, d) →
      c.1 < m.height ∧ c.2 < m.width)
    ∧ (∀ nd, prob10.nextDirection p dir = some nd →
      m.height ≤ (prob10.shiftWrap coord nd).1 ∨
        m.width ≤ (prob10.shiftWrap coord nd).2 →
      m.get_next_node coord dir =
        .err (.invalidNextCoordinate (prob10.shiftWrap coord nd)))
    ∧ (∀ nd, prob10.nextDirection p dir = some nd →
      (nd = .north ∧ coord.1 = 0) ∨ (nd = .west ∧ coord.2 = 0) →
      m.get_next_node coord dir =
        .err (.invalidNextCoordinate (prob10.shiftWrap coord nd))) := by
  have hB : ∀ nd, prob10.nextDirection p dir = some nd →
      m.height ≤ (prob10.shiftWrap coord nd).1 ∨
        m.width ≤ (prob10.shiftWrap coord nd).2 →
      m.get_next_node coord dir =
        .err (.invalidNextCoordinate (prob10.shiftWrap coord nd)) := by
    intro nd hnd hb
    unfold prob10.PipeMap.get_next_node
    simp only [hget, hnd]
    rw [if_neg (not_or.mpr ⟨hn, hs⟩), if_pos hb]
  refine ⟨fun c d h => get_next_node_ok_inbounds m coord dir c d h, hB, ?_⟩
  intro nd hnd hcase
  apply hB nd hnd
  rcases hcase with ⟨rfl, hc⟩ | ⟨rfl, hc⟩
  · left
    show m.height ≤ wsub64 coord.1 1
    rw [hc]
    unfold wsub64 w64
    omega
  · right
    show m.width ≤ wsub64 coord.2 1
    rw [hc]
    unfold wsub64 w64
    omega

/-- C6 witness: on a 2 × 2 map whose north-west cell is a `J` pipe, stepping
in from the east makes the pipe continue north out of the grid, and
`get_next_node` returns the out-of-bounds-coordinate error at the wrapped
coordinate. -/
theorem claim_C6_witness :
    (prob10.PipeMap.mk
        [[prob10.Pipe.cornerNorthWest, prob10.Pipe.cornerSouthWest],
          [prob10.Pipe.cornerNorthEast, prob10.Pipe.none]] 2 2).get_next_node
      (0, 0) prob10.CardinalDirection.west =
      .err (.invalidNextCoordinate (wsub64 0 1, 0)) :=
  ((claim_C6
      (prob10.PipeMap.mk
        [[prob10.Pipe.cornerNorthWest, prob10.Pipe.cornerSouthWest],
          [prob10.Pipe.cornerNorthEast, prob10.Pipe.none]] 2 2)
      (0, 0) .west .cornerNorthWest rfl (by decide) (by decide) (by decide)
      (by decide)).2.2 .north rfl (Or.inl ⟨rfl, rfl⟩))

/-! ### Claim C10: zero-valued digit runs are never collected -/

theorem rowLoop_pos (s : prob3.Schematic) (ri : Nat) :
    ∀ (cs : List Char) (ci number : Nat) (isPart : Bool) (acc l : List Nat),
      (∀ n ∈ acc, 0 < n) →
      prob3.rowLoop s ri cs ci number isPart acc = .ok l →
      ∀ n ∈ l, 0 < n := by
  intro cs
  induction cs with
  | nil =>
    intro ci number isPart acc l hacc h
    unfold prob3.rowLoop at h
    injection h with h
    exact h ▸ hacc
  | cons c cs ih =>
    intro ci number isPart acc l hacc h
    unfold prob3.rowLoop at h
    split at h
    · cases htd : prob3.toDigit c <;> simp only [htd] at h
      case none => cases h
      case some d =>
      cases hadj : prob3.is_adjacent_to_symbol s ri ci <;> simp only [hadj] at h
      case err => cases h
      case panicked => cases h
      case noFuel => cases h
      case ok adj =>
      split at h
      · rename_i hcond
        refine ih (ci + 1) 0 false _ l ?_ h
        split
        · intro n hn
          rcases List.mem_append.mp hn with hmem | hmem
          · exact hacc n hmem
          · rcases List.mem_singleton.mp hmem with rfl
            exact hcond.2
        · exact hacc
      · exact ih (ci + 1) _ _ acc l hacc h
    · split at h
      · rename_i hpos
        refine ih (ci + 1) 0 false _ l ?_ h
        split
        · intro n hn
          rcases List.mem_append.mp hn with hmem | hmem
          · exact hacc n hmem
          · rcases List.mem_singleton.mp hmem with rfl
            exact hpos
        · exact hacc
      · exact ih (ci + 1) number isPart acc l hacc h

theorem rowsLoop_pos (s : prob3.Schematic) :
    ∀ (rows : List String) (ri : Nat) (acc l : List Nat),
      (∀ n ∈ acc, 0 < n) →
      prob3.rowsLoop s rows ri acc = .ok l →
      ∀ n ∈ l, 0 < n := by
  intro rows
  induction rows with
  | nil =>
    intro ri acc l hacc h
    unfold prob3.rowsLoop at h
    injection h with h
    exact h ▸ hacc
  | cons r rs ih =>
    intro ri acc l hacc h
    unfold prob3.rowsLoop at h
    cases hrow : prob3.rowLoop s ri r.data 0 0 false acc <;>
      simp only [hrow] at h
    case err => cases h
    case panicked => cases h
    case noFuel => cases h
    case ok acc' =>
    exact ih (ri + 1) acc' l (rowLoop_pos s ri r.data 0 0 false acc acc' hacc hrow) h

/-- C10: a maximal digit run whose `u32` value is zero (such as `"0"` or
`"00"`) is never included in the list returned by `get_part_numbers`, even
when it is adjacent to a symbol: the accumulator flush is guarded by the
running value being greater than zero, so every collected number is positive
and `0` never appears. -/
theorem claim_C10 (s : prob3.Schematic) (l : List Nat)
    (h : prob3.get_part_numbers s = .ok l) : (0 : Nat) ∉ l := by
  intro hmem
  exact absurd (rowsLoop_pos s s.rows 0 [] l (by simp) h 0 hmem) (by omega)

/-- C10 witness: in the one-row schematic `"0#1"` the zero run is adjacent to
the symbol `#` yet only `1` is collected, and `0` is not in the result. -/
theorem claim_C10_witness :
    prob3.get_part_numbers (prob3.Schematic.mk ["0#1"] 3 1) = .ok [1] ∧
      (0 : Nat) ∉ ([1] : List Nat) :=
  ⟨by decide, claim_C10 (prob3.Schematic.mk ["0#1"] 3 1) [1] (by decide)⟩

/-! ### Claim C8: the printed answer blocks -/

/-- C8 counterexample: on an input where both parts succeed, the prob16
program prints four lines — two two-line answer blocks — not the "two lines"
the claim (echoing the spec's phrasing) asserts. -/
theorem claim_C8_counterexample :
    prob16.mainOut "." 50 =
      (["## Part 1", " > 1", "## Part 2", " > 0"], .ok ()) ∧
      (prob16.mainOut "." 50).1.length ≠ 2 := by
  constructor <;> decide

/-- C8 (amended): for every input on which both parts succeed, each puzzle
program writes exactly two answer blocks — four lines — to standard output,
in order: the line `## Part 1` followed by ` > <part-1 value>`, then the line
`## Part 2` followed by ` > <part-2 value>`, and the process outcome is
success (a zero exit code); on malformed input the run aborts with the error
value instead. -/
theorem claim_C8_amended (input : String) (fuel : Nat) :
    (∀ v w : Nat, prob10.part1 input fuel = .ok v →
      prob10.part2 input fuel = .ok w →
      prob10.mainOut input fuel =
        (["## Part 1", " > " ++ toString v, "## Part 2", " > " ++ toString w],
          .ok ()))
    ∧ (∀ v w : Nat, prob16.part1 input fuel = .ok v →
      prob16.part2 input = .ok w →
      prob16.mainOut input fuel =
        (["## Part 1", " > " ++ toString v, "## Part 2", " > " ++ toString w],
          .ok ()))
    ∧ (∀ v w : Nat, prob3.part1 input = .ok v →
      prob3.part2 input = .ok w →
      prob3.mainOut input =
        (["## Part 1", " > " ++ toString v, "## Part 2", " > " ++ toString w],
          .ok ())) := by
  refine ⟨fun v w h1 h2 => ?_, fun v w h1 h2 => ?_, fun v w h1 h2 => ?_⟩
  · unfold prob10.mainOut
    simp only [h1, h2]
  · unfold prob16.mainOut
    simp only [h1, h2]
  · unfold prob3.mainOut
    simp only [h1, h2]

/-- C8 witness: the amended statement applied to the prob3 program on the
concrete input `"1*1"`, whose two part numbers 1 and 1 sum to 2. -/
theorem claim_C8_amended_witness :
    prob3.mainOut "1*1" =
      (["## Part 1", " > 2", "## Part 2", " > 0"], .ok ()) :=
  (claim_C8_amended "1*1" 0).2.2 2 0 (by decide) rfl

/-! ### Claim C7: the beam flood fill terminates -/

theorem mem_stateF (h w : Nat) (b : prob16.Beam) :
    b ∈ prob16.stateF h w ↔ b.1.1 < h ∧ b.1.2 < w := by
  obtain ⟨⟨x, y⟩, d⟩ := b
  cases d <;>
    simp [prob16.stateF, prob16.dirAll, Finset.mem_product]

theorem unv_insert (h w : Nat) (b : prob16.Beam) (paths : List prob16.Beam)
    (hx : b.1.1 < h) (hy : b.1.2 < w) (hb : b ∉ paths) :
    (prob16.unv h w (b :: paths)).card + 1 = (prob16.unv h w paths).card := by
  have hmem : b ∈ prob16.unv h w paths := by
    simp only [prob16.unv, Finset.mem_filter]
    exact ⟨(mem_stateF h w b).mpr ⟨hx, hy⟩, hb⟩
  have hset : prob16.unv h w (b :: paths) = (prob16.unv h w paths).erase b := by
    ext z
    simp only [prob16.unv, Finset.mem_filter, Finset.mem_erase, List.mem_cons]
    tauto
  rw [hset, Finset.card_erase_of_mem hmem]
  have hpos : 0 < (prob16.unv h w paths).card := Finset.card_pos.mpr ⟨b, hmem⟩
  omega

theorem unv_card_le (h w : Nat) (paths : List prob16.Beam) :
    (prob16.unv h w paths).card ≤ h * w * 4 := by
  have h1 : (prob16.unv h w paths).card ≤ (prob16.stateF h w).card :=
    Finset.card_filter_le _ _
  have h2 : (prob16.stateF h w).card = h * w * 4 := by
    have h4 : (prob16.dirAll).card = 4 := by decide
    simp [prob16.stateF, Finset.card_product, Finset.card_range, h4]
  omega

theorem nodeAt_some (grid : List (List prob16.Node)) (w x y : Nat)
    (hrect : ∀ r ∈ grid, r.length = w) (hx : x < grid.length) (hy : y < w) :
    ∃ n, prob16.nodeAt grid (x, y) = some n := by
  unfold prob16.nodeAt
  rw [List.get?_eq_get hx]
  have hrow : (grid.get ⟨x, hx⟩).length = w :=
    hrect (grid.get ⟨x, hx⟩) (grid.get_mem x hx)
  refine ⟨(grid.get ⟨x, hx⟩).get ⟨y, by omega⟩, ?_⟩
  show (grid.get ⟨x, hx⟩).get? (x, y).2 = _
  exact List.get?_eq_get (by omega)

theorem newBeams_length (n : prob16.Node) (d : prob16.Direction)
    (coord : Nat × Nat) : (prob16.newBeams n d coord).length ≤ 2 := by
  cases n <;> cases d <;> simp [prob16.newBeams]

theorem newBeams_fst (n : prob16.Node) (d : prob16.Direction)
    (coord : Nat × Nat) (b' : prob16.Beam)
    (h : b' ∈ prob16.newBeams n d coord) : b'.1 = coord := by
  cases n <;> cases d <;> simp [prob16.newBeams] at h <;>
    rcases h with rfl | rfl <;> rfl

theorem offgrid_false_next (l : prob16.Layout) (w : Nat)
    (hne : l.grid ≠ []) (hrect : ∀ r ∈ l.grid, r.length = w)
    (hH : l.grid.length ≤ 2 ^ 64) (hW : w ≤ 2 ^ 64)
    (b : prob16.Beam) (hbx : b.1.1 < l.grid.length) (hby : b.1.2 < w)
    (hoff : prob16.beam_going_off_grid l b = false) :
    (prob16.get_next_coordinate b).1 < l.grid.length ∧
      (prob16.get_next_coordinate b).2 < w := by
  have hlen : 0 < l.grid.length := List.length_pos.mpr hne
  have hw0 : (l.grid.headD []).length = w := by
    cases hg : l.grid with
    | nil => exact absurd hg hne
    | cons r rs =>
      simpa using hrect r (by rw [hg]; exact List.mem_cons_self r rs)
  obtain ⟨⟨x, y⟩, d⟩ := b
  simp only at hbx hby
  cases d
  case up =>
    simp only [prob16.beam_going_off_grid, decide_eq_false_iff_not] at hoff
    simp only [prob16.get_next_coordinate]
    refine ⟨?_, hby⟩
    have : wsub64 x 1 = x - 1 := by unfold wsub64 w64; omega
    omega
  case down =>
    simp only [prob16.beam_going_off_grid, decide_eq_false_iff_not,
      not_le] at hoff
    have hsub : wsub64 l.grid.length 1 = l.grid.length - 1 := by
      unfold wsub64 w64; omega
    rw [hsub] at hoff
    simp only [prob16.get_next_coordinate]
    refine ⟨?_, hby⟩
    have : wadd64 x 1 = x + 1 := by unfold wadd64 w64; omega
    omega
  case left =>
    simp only [prob16.beam_going_off_grid, decide_eq_false_iff_not] at hoff
    simp only [prob16.get_next_coordinate]
    refine ⟨hbx, ?_⟩
    have : wsub64 y 1 = y - 1 := by unfold wsub64 w64; omega
    omega
  case right =>
    simp only [prob16.beam_going_off_grid, decide_eq_false_iff_not,
      not_le] at hoff
    rw [hw0] at hoff
    have hsub : wsub64 w 1 = w - 1 := by unfold wsub64 w64; omega
    rw [hsub] at hoff
    simp only [prob16.get_next_coordinate]
    refine ⟨hbx, ?_⟩
    have : wadd64 y 1 = y + 1 := by unfold wadd64 w64; omega
    omega

theorem beamLoop_drains (l : prob16.Layout) (w : Nat)
    (hne : l.grid ≠ []) (hrect : ∀ r ∈ l.grid, r.length = w)
    (hH : l.grid.length ≤ 2 ^ 64) (hW : w ≤ 2 ^ 64) :
    ∀ (fuel : Nat) (queue paths : List prob16.Beam),
      (∀ b ∈ queue, b.1.1 < l.grid.length ∧ b.1.2 < w) →
      3 * (prob16.unv l.grid.length w paths).card + queue.length < fuel →
      ∃ ps, prob16.beamLoop l fuel queue paths = .ok ps := by
  intro fuel
  induction fuel with
  | zero => intro queue paths _ hm; exact absurd hm (by omega)
  | succ f ih =>
    intro queue paths hinv hm
    cases queue with
    | nil => exact ⟨paths, rfl⟩
    | cons b rest =>
      have hb := hinv b (List.mem_cons_self b rest)
      have hrest : ∀ x ∈ rest, x.1.1 < l.grid.length ∧ x.1.2 < w :=
        fun x hx => hinv x (List.mem_cons_of_mem b hx)
      simp only [List.length_cons] at hm
      by_cases hmem : b ∈ paths
      · have heq : prob16.beamLoop l (f + 1) (b :: rest) paths =
            prob16.beamLoop l f rest paths := by
          simp only [prob16.beamLoop, if_pos hmem]
        rw [heq]
        exact ih rest paths hrest (by omega)
      · have hdrop := unv_insert l.grid.length w b paths hb.1 hb.2 hmem
        cases hoff : prob16.beam_going_off_grid l b with
        | true =>
          have heq : prob16.beamLoop l (f + 1) (b :: rest) paths =
              prob16.beamLoop l f rest (b :: paths) := by
            simp only [prob16.beamLoop, if_neg hmem, if_pos hoff]
          rw [heq]
          exact ih rest (b :: paths) hrest (by omega)
        | false =>
          have hoff' : ¬ (prob16.beam_going_off_grid l b = true) := by
            simp [hoff]
          have hnext := offgrid_false_next l w hne hrect hH hW b hb.1 hb.2 hoff
          obtain ⟨node, hnode0⟩ := nodeAt_some l.grid w
            (prob16.get_next_coordinate b).1 (prob16.get_next_coordinate b).2
            hrect hnext.1 hnext.2
          have hnode : prob16.nodeAt l.grid (prob16.get_next_coordinate b)
              = some node := hnode0
          have heq : prob16.beamLoop l (f + 1) (b :: rest) paths =
              prob16.beamLoop l f
                (rest ++ prob16.newBeams node b.2 (prob16.get_next_coordinate b))
                (b :: paths) := by
            simp only [prob16.beamLoop, if_neg hmem, if_neg hoff', hnode]
          rw [heq]
          refine ih _ _ ?_ ?_
          · intro x hx
            rcases List.mem_append.mp hx with hx' | hx'
            · exact hrest x hx'
            · rw [newBeams_fst node b.2 (prob16.get_next_coordinate b) x hx']
              exact hnext
          · have hlen2 := newBeams_length node b.2 (prob16.get_next_coordinate b)
            simp only [List.length_append]
            omega

/-- C7: the light-beam flood fill terminates on every parsed layout: for every
non-empty rectangular grid (with its dimensions bounded by `2 ^ 64`, as for
any actual Rust `Vec`), `Layout::beam` run with `beamFuel` fuel returns a
count — the fuel is never exhausted, because each beam state is processed at
most once (states already in `paths_taken` are skipped), bounding the
computation by the finite number of beam states. -/
theorem claim_C7 (l : prob16.Layout) (w : Nat) (hne : l.grid ≠ [])
    (hw : 0 < w) (hrect : ∀ r ∈ l.grid, r.length = w)
    (hH : l.grid.length ≤ 2 ^ 64) (hW : w ≤ 2 ^ 64) :
    ∃ n, l.beam (prob16.beamFuel l) = .ok n := by
  have hlen : 0 < l.grid.length := List.length_pos.mpr hne
  have hw0 : (l.grid.headD []).length = w := by
    cases hg : l.grid with
    | nil => exact absurd hg hne
    | cons r rs =>
      simpa using hrect r (by rw [hg]; exact List.mem_cons_self r rs)
  have hfuel : 3 * (prob16.unv l.grid.length w []).card + 1 <
      prob16.beamFuel l := by
    have hcard := unv_card_le l.grid.length w []
    unfold prob16.beamFuel
    rw [hw0, mul_assoc]
    set k := l.grid.length * w with hk
    omega
  obtain ⟨first, hfirst0⟩ := nodeAt_some l.grid w 0 0 hrect hlen hw
  have hfirst : prob16.nodeAt l.grid (0, 0) = some first := hfirst0
  have hrun : ∀ d : prob16.Direction,
      ∃ n, prob16.beamRun l (prob16.beamFuel l) d = .ok n := by
    intro d
    obtain ⟨ps, hps⟩ := beamLoop_drains l w hne hrect hH hW
      (prob16.beamFuel l) [((0, 0), d)] []
      (by
        intro x hx
        rcases List.mem_singleton.mp hx with rfl
        exact ⟨hlen, hw⟩)
      (by simpa using hfuel)
    exact ⟨_, by unfold prob16.beamRun; rw [hps]⟩
  unfold prob16.Layout.beam
  rw [hfirst]
  cases first
  case empty => exact hrun .right
  case horizontal => exact hrun .right
  case vertical => exact hrun .down
  case down => exact hrun .down
  case up => exact ⟨1, rfl⟩

/-- C7 witness: the termination bound applied to a concrete 2 × 2 empty grid
yields a successful count with `beamFuel` fuel. -/
theorem claim_C7_witness :
    ∃ n, prob16.Layout.beam
        (prob16.Layout.mk
          [[prob16.Node.empty, prob16.Node.empty],
            [prob16.Node.empty, prob16.Node.empty]])
        (prob16.beamFuel
          (prob16.Layout.mk
            [[prob16.Node.empty, prob16.Node.empty],
              [prob16.Node.empty, prob16.Node.empty]])) = .ok n :=
  claim_C7
    (prob16.Layout.mk
      [[prob16.Node.empty, prob16.Node.empty],
        [prob16.Node.empty, prob16.Node.empty]]) 2
    (by decide) (by decide) (by decide) (by decide) (by decide)
